import Mathlib

/-!
Verification development for the asXiv arXiv search utilities.

This file gives a shallow embedding, in Lean 4, of the query-builder and
feed-normalizer code of `src/utils/arxivSearch.ts` and of the arXiv-id
URL utilities of `src/utils/arxivUtils.ts`, and proves or refutes the
stated properties of those functions.

Modelling conventions:
- JavaScript strings are Lean `String`s; most scanning work is done on
  `List Char` (the `.data` of the string).
- Optional TypeScript string fields (`author?: string` etc.) are modelled
  as `String`, with `""` standing for both `undefined` and the empty
  string: the source only ever inspects them through JS truthiness
  (`if (author) ...`), which identifies the two.
- JS `number` values that flow through `parseInt` are modelled as
  `Option Nat`: `none` stands for `NaN`.  (The reachable `parseInt`
  inputs are digit strings or strings starting with a non-digit, so the
  sign and leading-whitespace handling of `parseInt` never matters;
  negative and fractional numbers do not occur in this code.)
- The regex scans of the source are fixed, concrete patterns; each one is
  embedded as a deterministic scanner with JavaScript regex semantics
  (leftmost match, greedy or lazy quantifiers as written, `g`-flag
  restart after the end of the previous match).
-/

/-- ASCII lower-casing of one character, used for the case-insensitive
regex flags (`/i`) of the source patterns. -/
def lowerChar (c : Char) : Char :=
  if 'A' ≤ c ∧ c ≤ 'Z' then Char.ofNat (c.toNat + 32) else c

/-- Character comparison, case-insensitive when `ci` is `true`. -/
def chEq (ci : Bool) (a b : Char) : Bool :=
  if ci then lowerChar a == lowerChar b else a == b

/-- If `pat` is a prefix of `s` (under `chEq ci`), return the rest of `s`
after that prefix. -/
def stripPref (ci : Bool) : List Char → List Char → Option (List Char)
  | [], s => some s
  | _ :: _, [] => none
  | p :: ps, c :: cs => if chEq ci p c then stripPref ci ps cs else none

/-- Try the position matcher `f` at every suffix of `s`, left to right,
returning the first success: the leftmost-match rule of a regex search. -/
def scanFirst {α : Type} (f : List Char → Option α) : List Char → Option α
  | [] => f []
  | c :: rest =>
    match f (c :: rest) with
    | some a => some a
    | none => scanFirst f rest

/-- Split `s` at the leftmost occurrence of `pat`: returns the text
before the occurrence and the text after it.  This is the lazy
`[\s\S]*?pat` idiom of the source patterns. -/
def breakOnPref (ci : Bool) (pat : List Char) : List Char → Option (List Char × List Char)
  | [] =>
    match stripPref ci pat [] with
    | some r => some ([], r)
    | none => none
  | c :: rest =>
    match stripPref ci pat (c :: rest) with
    | some r => some ([], r)
    | none =>
      match breakOnPref ci pat rest with
      | some (a, b) => some (c :: a, b)
      | none => none

/-- Fueled worker for `scanAll`.  Each step either consumes one match
(continuing after its end, as a JS `g`-flag `exec` loop does via
`lastIndex`) or advances one character.  All the matchers used here
consume at least one character per match, so fuel `s.length + 1` is
never exhausted. -/
def scanAllAux {α : Type} (f : List Char → Option (α × List Char)) :
    Nat → List Char → List α
  | 0, _ => []
  | _ + 1, [] =>
    match f [] with
    | some (a, _) => [a]
    | none => []
  | fuel + 1, c :: rest =>
    match f (c :: rest) with
    | some (a, rem) => a :: scanAllAux f fuel rem
    | none => scanAllAux f fuel rest

/-- All matches of the position matcher `f` in `s`, in order: the JS
`while ((m = re.exec(s)) !== null)` loop for a `g`-flag regex. -/
def scanAll {α : Type} (f : List Char → Option (α × List Char)) (s : List Char) : List α :=
  scanAllAux f (s.length + 1) s

/-- JavaScript `String.prototype.trim` (on the whitespace that actually
occurs in feeds: spaces, tabs, newlines, carriage returns). -/
def jsTrim (s : String) : String :=
  String.mk (((s.data.dropWhile Char.isWhitespace).reverse.dropWhile Char.isWhitespace).reverse)

/-- Value of a list of decimal digit characters. -/
def digitsToNat (l : List Char) : Nat :=
  l.foldl (fun n c => n * 10 + (c.toNat - 48)) 0

/-- JavaScript `parseInt(s, 10)`: the leading digit run of `s`, or `NaN`
(modelled as `none`) when `s` does not start with a digit.  The strings
reaching `parseInt` in this code are either all-digit regex captures or
tag-shaped full matches starting with a non-digit, so the sign and
leading-whitespace handling of the real `parseInt` is irrelevant and is
omitted. -/
def jsParseInt (s : String) : Option Nat :=
  let d := s.data.takeWhile Char.isDigit
  if d.isEmpty then none else some (digitsToNat d)

/-! ## Query builder (`searchArxiv`, src/utils/arxivSearch.ts lines 47-113) -/

/-- The `sortBy` union type of `ArxivSearchParams`. -/
inductive SortBy
  | relevance
  | lastUpdatedDate
  | submittedDate
deriving DecidableEq

/-- Query-parameter spelling of a `SortBy` value. -/
def SortBy.toStr : SortBy → String
  | .relevance => "relevance"
  | .lastUpdatedDate => "lastUpdatedDate"
  | .submittedDate => "submittedDate"

/-- The `sortOrder` union type of `ArxivSearchParams`. -/
inductive SortOrder
  | ascending
  | descending
deriving DecidableEq

/-- Query-parameter spelling of a `SortOrder` value. -/
def SortOrder.toStr : SortOrder → String
  | .ascending => "ascending"
  | .descending => "descending"

/-- The `ArxivSearchParams` interface (src/utils/arxivSearch.ts lines
27-41).  Optional string fields are `String` with `""` for absent;
optional numeric and enum fields are `Option`, their destructuring
defaults applied in `searchArxivPrepare`. -/
structure ArxivSearchParams where
  query : String
  start : Option Nat := none
  maxResults : Option Nat := none
  sortBy : Option SortBy := none
  sortOrder : Option SortOrder := none
  category : String := ""
  author : String := ""
  title : String := ""
  abstract : String := ""
  comment : String := ""
  journal : String := ""
  reportNumber : String := ""
  all : String := ""

/-- The field-prefixed token list built by the `else` branch of the
query construction (src/utils/arxivSearch.ts lines 70-81): one
`queryParts.push` per populated field, in the order the pushes appear in
the source. -/
def queryParts (p : ArxivSearchParams) : List String :=
  (if p.query = "" then [] else ["all:" ++ p.query]) ++
  (if p.author = "" then [] else ["au:" ++ p.author]) ++
  (if p.title = "" then [] else ["ti:" ++ p.title]) ++
  (if p.abstract = "" then [] else ["abs:" ++ p.abstract]) ++
  (if p.comment = "" then [] else ["co:" ++ p.comment]) ++
  (if p.journal = "" then [] else ["jr:" ++ p.journal]) ++
  (if p.reportNumber = "" then [] else ["rn:" ++ p.reportNumber]) ++
  (if p.category = "" then [] else ["cat:" ++ p.category])

/-- The `search_query` string built by `searchArxiv`
(src/utils/arxivSearch.ts lines 65-83): the `all` override alone when it
is truthy, otherwise the populated field tokens joined by `' AND '`. -/
def buildSearchQuery (p : ArxivSearchParams) : String :=
  if p.all ≠ "" then "all:" ++ p.all
  else String.intercalate " AND " (queryParts p)

/-- The query parameters `searchArxiv` sets on the request URL
(src/utils/arxivSearch.ts lines 86-93). -/
structure BuiltRequest where
  search_query : String
  start : String
  max_results : String
  sortBy : String
  sortOrder : String
deriving DecidableEq

/-- The synchronous prefix of `searchArxiv` (src/utils/arxivSearch.ts
lines 47-96): everything up to the `fetch` call.  The `Except` layer is
where a thrown validation error would surface; the source contains no
validation branch and no other throwing statement before the fetch, so
every input reaches the network request, carried in the `ok` value. -/
def searchArxivPrepare (p : ArxivSearchParams) : Except String BuiltRequest :=
  Except.ok
    { search_query := buildSearchQuery p
      start := toString (p.start.getD 0)
      max_results := toString (p.maxResults.getD 10)
      sortBy := (p.sortBy.getD SortBy.relevance).toStr
      sortOrder := (p.sortOrder.getD SortOrder.descending).toStr }

/-- Modelled from the spec: "the built query string contains one
prefixed token per populated field, joined by ` AND `", the fields taken
in the order the spec and the claim list the prefixes
(all:, au:, ti:, abs:, co:, jr:, rn:, cat:). -/
def specFieldTokens (p : ArxivSearchParams) : List String :=
  ([("all:", p.query), ("au:", p.author), ("ti:", p.title), ("abs:", p.abstract),
    ("co:", p.comment), ("jr:", p.journal), ("rn:", p.reportNumber),
    ("cat:", p.category)]).filterMap
    (fun pr => if pr.2 = "" then none else some (pr.1 ++ pr.2))

/-- Modelled from the spec: the spec-side built query string, the
populated-field tokens joined by the literal `' AND '`. -/
def specQueryString (p : ArxivSearchParams) : String :=
  String.intercalate " AND " (specFieldTokens p)

/-! ## Feed normalizer: total-results extraction
(`parseArxivXmlResponse`, src/utils/arxivSearch.ts lines 126-160) -/

/-- Literal text of the namespaced total-results open tag. -/
def osTotalOpen : List Char := ("<opensearch:totalResults>").data

/-- Literal text of the namespaced total-results close tag. -/
def osTotalClose : List Char := ("</opensearch:totalResults>").data

/-- Literal text of the plain total-results open tag. -/
def plainTotalOpen : List Char := ("<totalResults>").data

/-- Literal text of the plain total-results close tag. -/
def plainTotalClose : List Char := ("</totalResults>").data

/-- Literal scanned for by the loose pattern `/totalResults[^>]*>(\d+)</i`. -/
def looseTotalLit : List Char := ("totalResults").data

/-- Literal scanned for by the loose pattern
`/opensearch:totalResults[^>]*>(\d+)</i`. -/
def looseOsTotalLit : List Char := ("opensearch:totalResults").data

/-- Position matcher for `openT(\d+)closeT`: the open literal, a
nonempty greedy digit run, then the close literal.  Returns the digit
capture and the remainder after the match. -/
def pmTagDigits (ci : Bool) (openT closeT : List Char) (s : List Char) :
    Option (List Char × List Char) :=
  match stripPref ci openT s with
  | none => none
  | some r1 =>
    let d := r1.takeWhile Char.isDigit
    if d.isEmpty then none
    else
      match stripPref ci closeT (r1.drop d.length) with
      | none => none
      | some r2 => some (d, r2)

/-- Position matcher for the loose pattern `lit[^>]*>(\d+)<` with the
`/i` flag: the literal (case-insensitive), a greedy non-`>` run, `>`, a
nonempty digit run, then `<`. -/
def pmLooseDigits (lit : List Char) (s : List Char) : Option (List Char × List Char) :=
  match stripPref true lit s with
  | none => none
  | some r1 =>
    match r1.dropWhile (fun c => c != '>') with
    | [] => none
    | c :: r3 =>
      if c == '>' then
        let d := r3.takeWhile Char.isDigit
        if d.isEmpty then none
        else
          match r3.drop d.length with
          | [] => none
          | c2 :: rem => if c2 == '<' then some (d, rem) else none
      else none

/-- JS `xmlText.match(re)[1]` for one of the non-global tag patterns:
the digit capture of the leftmost match. -/
def mtExact (ci : Bool) (openT closeT : List Char) (l : List Char) : Option String :=
  (scanFirst (pmTagDigits ci openT closeT) l).map (fun pr => String.mk pr.1)

/-- Full-match variant of `pmTagDigits` (case-sensitive, as the
`g`-flagged source patterns are): reconstructs the whole matched text. -/
def pmTagDigitsFull (openT closeT : List Char) (s : List Char) :
    Option (String × List Char) :=
  (pmTagDigits false openT closeT s).map
    (fun pr => (String.mk (openT ++ pr.1 ++ closeT), pr.2))

/-- JS `xmlText.match(re)[1]` for one of the `g`-flagged tag patterns:
with a global flag `match` returns the list of full matches, so `[1]` is
the second full match when it exists (and the `match && match[1]` guard
of the source also requires it to be a nonempty string). -/
def mtGlobalSecond (openT closeT : List Char) (l : List Char) : Option String :=
  match scanAll (pmTagDigitsFull openT closeT) l with
  | _ :: m2 :: _ => if m2 ≠ "" then some m2 else none
  | _ => none

/-- JS `xmlText.match(re)[1]` for one of the loose `/i` patterns. -/
def mtLoose (lit : List Char) (l : List Char) : Option String :=
  (scanFirst (pmLooseDigits lit) l).map (fun pr => String.mk pr.1)

/-- The `totalResultsPatterns` cascade (src/utils/arxivSearch.ts lines
133-151): try the eight patterns in order, and on the first one whose
`match && match[1]` guard passes, `parseInt` the `[1]` value and stop.
`none` means no pattern fired (`totalResults` stays `0`); `some none`
would mean a fired pattern produced `NaN`. -/
def totalResultsCascade (l : List Char) : Option (Option Nat) :=
  match mtExact false osTotalOpen osTotalClose l with
  | some s => some (jsParseInt s)
  | none =>
  match mtExact false plainTotalOpen plainTotalClose l with
  | some s => some (jsParseInt s)
  | none =>
  match mtExact true osTotalOpen osTotalClose l with
  | some s => some (jsParseInt s)
  | none =>
  match mtExact true plainTotalOpen plainTotalClose l with
  | some s => some (jsParseInt s)
  | none =>
  match mtGlobalSecond osTotalOpen osTotalClose l with
  | some s => some (jsParseInt s)
  | none =>
  match mtGlobalSecond plainTotalOpen plainTotalClose l with
  | some s => some (jsParseInt s)
  | none =>
  match mtLoose looseTotalLit l with
  | some s => some (jsParseInt s)
  | none =>
  match mtLoose looseOsTotalLit l with
  | some s => some (jsParseInt s)
  | none => none

/-! ## Feed normalizer: entry extraction
(`parseArxivXmlResponse` and `parseArxivEntry`,
src/utils/arxivSearch.ts lines 161-277) -/

/-- Literal text of the entry open tag. -/
def entryOpenTag : List Char := ("<entry>").data

/-- Literal text of the entry close tag. -/
def entryCloseTag : List Char := ("</entry>").data

/-- Position matcher for `/<entry>([\s\S]*?)<\/entry>/`: the open tag,
then the lazy capture up to the nearest close tag. -/
def pmEntryCapture (s : List Char) : Option (String × List Char) :=
  match stripPref false entryOpenTag s with
  | none => none
  | some r1 =>
    match breakOnPref false entryCloseTag r1 with
    | none => none
    | some (cap, rem) => some (String.mk cap, rem)

/-- All `<entry>` captures of the feed, in feed order: the
`entryRegex.exec` loop of src/utils/arxivSearch.ts lines 162-177. -/
def extractEntries (xml : String) : List String :=
  scanAll pmEntryCapture xml.data

/-- Position matcher for `openT([^<]+)closeT`: the open literal, a
nonempty greedy non-`<` capture, then the close literal. -/
def pmTagText (openT closeT : List Char) (s : List Char) :
    Option (List Char × List Char) :=
  match stripPref false openT s with
  | none => none
  | some r1 =>
    let cap := r1.takeWhile (fun c => c != '<')
    if cap.isEmpty then none
    else
      match stripPref false closeT (r1.drop cap.length) with
      | none => none
      | some r2 => some (cap, r2)

/-- Literal prefix of the entry id pattern
`/<id>http:\/\/arxiv\.org\/abs\/([^<]+)<\/id>/`. -/
def idOpenTag : List Char := ("<id>http://arxiv.org/abs/").data

/-- Literal text of the id close tag. -/
def idCloseTag : List Char := ("</id>").data

/-- The raw id capture of an entry: `idMatch[1]` of
src/utils/arxivSearch.ts line 211. -/
def extractIdRaw (e : List Char) : Option String :=
  (scanFirst (pmTagText idOpenTag idCloseTag) e).map (fun pr => String.mk pr.1)

/-- Literal text of the title open tag. -/
def titleOpenTag : List Char := ("<title>").data

/-- Literal text of the title close tag. -/
def titleCloseTag : List Char := ("</title>").data

/-- The title capture of an entry (src/utils/arxivSearch.ts line 218). -/
def extractTitle (e : List Char) : Option String :=
  (scanFirst (pmTagText titleOpenTag titleCloseTag) e).map (fun pr => String.mk pr.1)

/-- Literal text of the summary open tag. -/
def summaryOpenTag : List Char := ("<summary>").data

/-- Literal text of the summary close tag. -/
def summaryCloseTag : List Char := ("</summary>").data

/-- Position matcher for `/<summary>([\s\S]*?)<\/summary>/`: lazy
capture, possibly empty. -/
def pmSummary (s : List Char) : Option (List Char × List Char) :=
  match stripPref false summaryOpenTag s with
  | none => none
  | some r1 => breakOnPref false summaryCloseTag r1

/-- The summary capture of an entry (src/utils/arxivSearch.ts line 232). -/
def extractSummary (e : List Char) : Option String :=
  (scanFirst pmSummary e).map (fun pr => String.mk pr.1)

/-- Literal text of the published open tag. -/
def publishedOpenTag : List Char := ("<published>").data

/-- Literal text of the published close tag. -/
def publishedCloseTag : List Char := ("</published>").data

/-- The published-date capture of an entry (line 236). -/
def extractPublished (e : List Char) : Option String :=
  (scanFirst (pmTagText publishedOpenTag publishedCloseTag) e).map (fun pr => String.mk pr.1)

/-- Literal text of the updated open tag. -/
def updatedOpenTag : List Char := ("<updated>").data

/-- Literal text of the updated close tag. -/
def updatedCloseTag : List Char := ("</updated>").data

/-- The updated-date capture of an entry (line 240). -/
def extractUpdated (e : List Char) : Option String :=
  (scanFirst (pmTagText updatedOpenTag updatedCloseTag) e).map (fun pr => String.mk pr.1)

/-- Literal text of the author open tag. -/
def authorOpenTag : List Char := ("<author>").data

/-- Literal text of the author close tag. -/
def authorCloseTag : List Char := ("</author>").data

/-- Literal text of the name open tag. -/
def nameOpenTag : List Char := ("<name>").data

/-- Literal text of the name close tag. -/
def nameCloseTag : List Char := ("</name>").data

/-- Position matcher for the author pattern
`/<author>[\s\S]*?<name>([^<]+)<\/name>[\s\S]*?<\/author>/g`: the open
tag, the lazy skip to the first well-formed `<name>..</name>` group, the
lazy skip to the first `</author>` after it. -/
def pmAuthor (s : List Char) : Option (String × List Char) :=
  match stripPref false authorOpenTag s with
  | none => none
  | some r1 =>
    match scanFirst (pmTagText nameOpenTag nameCloseTag) r1 with
    | none => none
    | some (cap, rem1) =>
      match breakOnPref false authorCloseTag rem1 with
      | none => none
      | some (_, rem2) => some (String.mk cap, rem2)

/-- All author-name captures of an entry, in order (the `authorRegex`
loop, src/utils/arxivSearch.ts lines 222-229). -/
def extractAuthorCaps (e : List Char) : List String :=
  scanAll pmAuthor e

/-- The double-quote character, written by code point to keep the
embedded literals readable. -/
def quoteChar : Char := Char.ofNat 34

/-- Literal text before the term capture of the category pattern. -/
def categoryOpenTag : List Char := ("<category term=").data ++ [quoteChar]

/-- Position matcher for `/<category term="([^"]+)"[^>]*\/>/g`: the open
literal, a nonempty non-quote capture, the closing quote, then a non-`>`
run that must end in `/` right before the closing `>`. -/
def pmCategory (s : List Char) : Option (String × List Char) :=
  match stripPref false categoryOpenTag s with
  | none => none
  | some r1 =>
    let cap := r1.takeWhile (fun c => c != quoteChar)
    if cap.isEmpty then none
    else
      match r1.drop cap.length with
      | q :: r2 =>
        if q == quoteChar then
          let run := r2.takeWhile (fun c => c != '>')
          match r2.drop run.length with
          | '>' :: rem =>
            if run.getLast? == some '/' then some (String.mk cap, rem) else none
          | _ => none
        else none
      | [] => none

/-- All category-term captures of an entry, in order (the
`categoryRegex` loop, src/utils/arxivSearch.ts lines 244-251). -/
def extractCategoryCaps (e : List Char) : List String :=
  scanAll pmCategory e

/-- Literal text of the DOI open tag. -/
def doiOpenTag : List Char := ("<arxiv:doi>").data

/-- Literal text of the DOI close tag. -/
def doiCloseTag : List Char := ("</arxiv:doi>").data

/-- The DOI capture of an entry (line 254). -/
def extractDoi (e : List Char) : Option String :=
  (scanFirst (pmTagText doiOpenTag doiCloseTag) e).map (fun pr => String.mk pr.1)

/-- Literal text of the comment open tag. -/
def commentOpenTag : List Char := ("<arxiv:comment>").data

/-- Literal text of the comment close tag. -/
def commentCloseTag : List Char := ("</arxiv:comment>").data

/-- The comment capture of an entry (line 258). -/
def extractComment (e : List Char) : Option String :=
  (scanFirst (pmTagText commentOpenTag commentCloseTag) e).map (fun pr => String.mk pr.1)

/-- JS `id.replace(/v\d+$/, '')` (src/utils/arxivSearch.ts line 214 and
`cleanArxivId` line 330): remove one trailing `v<digits>` suffix.  The
match position of that anchored pattern is unique, so a single check at
the end of the string is equivalent. -/
def stripVersionSuffix (s : String) : String :=
  let r := s.data.reverse
  let ds := r.takeWhile Char.isDigit
  if ds.isEmpty then s
  else
    match r.drop ds.length with
    | 'v' :: rest => String.mk rest.reverse
    | _ => s

/-- Decision procedure for `/v\d+$/.test s`: does `s` end in a version
suffix? -/
def matchesVersionSuffix (s : String) : Bool :=
  let r := s.data.reverse
  let ds := r.takeWhile Char.isDigit
  if ds.isEmpty then false
  else
    match r.drop ds.length with
    | 'v' :: _ => true
    | _ => false

/-- The `ArxivSearchResult` interface (src/utils/arxivSearch.ts lines
5-17).  `doi` and `comment` are optional in the source; `none` models
`undefined`. -/
structure ArxivSearchResult where
  id : String
  title : String
  authors : List String
  abstract : String
  published : String
  updated : String
  categories : List String
  pdfUrl : String
  abstractUrl : String
  doi : Option String
  comment : Option String
deriving DecidableEq

/-- The `parseArxivEntry` function (src/utils/arxivSearch.ts lines
208-277): `none` when the id capture fails, otherwise the record with
every other field defaulted on extraction failure.  The JS truthiness
guards `m && m[1]` are kept as the nonemptiness tests on the captures. -/
def parseArxivEntry (entryXml : String) : Option ArxivSearchResult :=
  match extractIdRaw entryXml.data with
  | none => none
  | some rawId =>
    let arxivId := stripVersionSuffix rawId
    some
      { id := arxivId
        title :=
          match extractTitle entryXml.data with
          | some t => if t ≠ "" then jsTrim t else "Untitled"
          | none => "Untitled"
        authors :=
          (extractAuthorCaps entryXml.data).filterMap
            (fun a => if a ≠ "" then some (jsTrim a) else none)
        abstract :=
          match extractSummary entryXml.data with
          | some s => if s ≠ "" then jsTrim s else ""
          | none => ""
        published :=
          match extractPublished entryXml.data with
          | some s => if s ≠ "" then s else ""
          | none => ""
        updated :=
          match extractUpdated entryXml.data with
          | some s => if s ≠ "" then s else ""
          | none => ""
        categories :=
          (extractCategoryCaps entryXml.data).filterMap
            (fun c => if c ≠ "" then some c else none)
        pdfUrl := "https://arxiv.org/pdf/" ++ arxivId
        abstractUrl := "https://arxiv.org/abs/" ++ arxivId
        doi :=
          match extractDoi entryXml.data with
          | some s => if s ≠ "" then some s else none
          | none => none
        comment :=
          match extractComment entryXml.data with
          | some s => if s ≠ "" then some s else none
          | none => none }

/-- The `ArxivSearchResponse` interface (src/utils/arxivSearch.ts lines
19-25).  `totalResults` is a JS number: `Option Nat` with `none` for
`NaN`. -/
structure ArxivSearchResponse where
  results : List ArxivSearchResult
  totalResults : Option Nat
  startIndex : Nat
  itemsPerPage : Nat
  query : String
deriving DecidableEq

/-- The `totalResults` value after the pattern cascade
(src/utils/arxivSearch.ts lines 132-151): initialised to `0`, assigned
the first firing pattern's `parseInt` value. -/
def totalResultsInit (xml : String) : Option Nat :=
  match totalResultsCascade xml.data with
  | some v => v
  | none => some 0

/-- The `totalResults` value after the pre-extraction fallback
(src/utils/arxivSearch.ts lines 153-159): when still `0`, estimate
`Math.max(100, start + maxResults + 50)`. -/
def totalResultsPre (xml : String) (start maxResults : Nat) : Option Nat :=
  if totalResultsInit xml = some 0 then some (Nat.max 100 (start + maxResults + 50))
  else totalResultsInit xml

/-- The `results` array of `parseArxivXmlResponse`
(src/utils/arxivSearch.ts lines 162-177): each entry capture, skipped
when falsy (empty), parsed and pushed when `parseArxivEntry` returns a
record.  The `try`/`catch` around the parse call cannot fire: the parse
is total.  -/
def resultsOf (xml : String) : List ArxivSearchResult :=
  (extractEntries xml).filterMap (fun e => if e = "" then none else parseArxivEntry e)

/-- The `totalResults` value after the post-extraction estimate
(src/utils/arxivSearch.ts lines 179-189): only when the count is still
`0` and records were found. -/
def totalResultsPost (xml : String) (start maxResults : Nat) : Option Nat :=
  if totalResultsPre xml start maxResults = some 0 ∧ 0 < (resultsOf xml).length then
    (if (resultsOf xml).length < maxResults then some (start + (resultsOf xml).length)
     else some (Nat.max (start + (resultsOf xml).length + 1) ((resultsOf xml).length * 2)))
  else totalResultsPre xml start maxResults

/-- The final `totalResults` value (src/utils/arxivSearch.ts line 192):
clamped to at least `start + results.length` by `Math.max`, which
propagates `NaN`. -/
def totalResultsFinal (xml : String) (start maxResults : Nat) : Option Nat :=
  (totalResultsPost xml start maxResults).map
    (fun t => Nat.max t (start + (resultsOf xml).length))

/-- The `parseArxivXmlResponse` function (src/utils/arxivSearch.ts lines
126-201). -/
def parseArxivXmlResponse (xmlText query : String) (start maxResults : Nat) :
    ArxivSearchResponse :=
  { results := resultsOf xmlText
    totalResults := totalResultsFinal xmlText start maxResults
    startIndex := start
    itemsPerPage := maxResults
    query := query }

/-! ## ArXiv id utilities (src/utils/arxivUtils.ts) -/

/-- Decision procedure for `ARXIV_ID_PATTERN.test s`
(src/utils/arxivUtils.ts line 25): the anchored pattern
`/^(\d{4}\.\d{4,5}|[a-z-]+\/\d{7})$/i`.  New format: four digits, a dot,
four or five digits.  Old format: one or more letters (either case,
from the `/i` flag) or hyphens, a slash, exactly seven digits. -/
def isValidArxivId (s : String) : Bool :=
  let l := s.data
  let newFmt :=
    (l.take 4).length == 4 && (l.take 4).all Char.isDigit &&
    (l.drop 4).head? == some '.' &&
    (let r := l.drop 5
     !r.isEmpty && r.all Char.isDigit && (r.length == 4 || r.length == 5))
  let oldFmt :=
    (let a := l.takeWhile (fun c => c.isAlpha || c == '-')
     let r := l.drop a.length
     !a.isEmpty && r.head? == some '/' &&
       ((r.drop 1).length == 7 && (r.drop 1).all Char.isDigit))
  newFmt || oldFmt

/-- Literal scanned for by the abstract-URL pattern. -/
def absUrlLit : List Char := ("arxiv.org/abs/").data

/-- Literal scanned for by the arXiv PDF-URL pattern. -/
def pdfUrlLit : List Char := ("arxiv.org/pdf/").data

/-- Literal scanned for by the local PDF-URL pattern. -/
def localPdfLit : List Char := ("/pdf/").data

/-- Position matcher for `lit([^X]+(?:\/[^X]+)?)` with the `/i` flag,
where `X` is the excluded-character class (`/?#`, plus `.` for the arXiv
PDF pattern): the literal, a nonempty first segment, then optionally a
slash and a nonempty second segment (the greedy `(?:...)?` takes the
optional part whenever it matches). -/
def pmUrlCapture (lit : List Char) (excludeDot : Bool) (s : List Char) :
    Option (List Char) :=
  let excl : Char → Bool := fun c =>
    c != '/' && c != '?' && c != '#' && (!excludeDot || c != '.')
  match stripPref true lit s with
  | none => none
  | some r1 =>
    let seg1 := r1.takeWhile excl
    if seg1.isEmpty then none
    else
      match r1.drop seg1.length with
      | '/' :: r2 =>
        let seg2 := r2.takeWhile excl
        if seg2.isEmpty then some seg1 else some (seg1 ++ '/' :: seg2)
      | _ => some seg1

/-- JS `candidate.replace(/\.pdf$/, '')` (src/utils/arxivUtils.ts line
161): drop one trailing `.pdf`. -/
def stripPdfExt (s : String) : String :=
  if s.data.reverse.take 4 == ("fdp.").data then String.mk (s.data.take (s.data.length - 4))
  else s

/-- One iteration of the pattern loop of `extractArxivIdFromUrl`
(src/utils/arxivUtils.ts lines 157-165): if the pattern matches, clean
the capture and return it only when it validates; otherwise fall
through to the next pattern. -/
def tryUrlPattern (lit : List Char) (excludeDot : Bool) (url : String) : Option String :=
  match scanFirst (pmUrlCapture lit excludeDot) url.data with
  | none => none
  | some cand =>
    let cleanId := stripPdfExt (String.mk cand)
    if isValidArxivId cleanId then some cleanId else none

/-- The `extractArxivIdFromUrl` function (src/utils/arxivUtils.ts lines
142-167): the three URL patterns tried in order, each returning only a
validated id. -/
def extractArxivIdFromUrl (url : String) : Option String :=
  match tryUrlPattern absUrlLit false url with
  | some s => some s
  | none =>
    match tryUrlPattern pdfUrlLit true url with
    | some s => some s
    | none => tryUrlPattern localPdfLit false url

/-! ## Helper lemmas -/

/-- Every character kept by `takeWhile` satisfies the predicate. -/
lemma all_takeWhile (p : Char → Bool) : ∀ l : List Char, ((l.takeWhile p).all p) = true := by
  intro l
  induction l with
  | nil => rfl
  | cons c cs ih =>
    cases hp : p c with
    | true => simp [List.takeWhile_cons, hp, ih]
    | false => simp [List.takeWhile_cons, hp]

/-- `takeWhile` keeps a list all of whose elements satisfy the predicate. -/
lemma takeWhile_eq_self (p : Char → Bool) :
    ∀ l : List Char, l.all p = true → l.takeWhile p = l := by
  intro l
  induction l with
  | nil => intro _; rfl
  | cons c cs ih =>
    intro h
    rw [List.all_cons, Bool.and_eq_true] at h
    simp [List.takeWhile_cons, h.1, ih h.2]

/-- `jsParseInt` succeeds on a nonempty all-digit string. -/
lemma jsParseInt_of_digits {d : List Char} (hne : d ≠ []) (hall : d.all Char.isDigit = true) :
    jsParseInt (String.mk d) = some (digitsToNat d) := by
  have hd : (String.mk d).data = d := rfl
  unfold jsParseInt
  rw [hd, takeWhile_eq_self _ _ hall]
  cases d with
  | nil => exact absurd rfl hne
  | cons c cs => rfl

/-- The capture of `pmTagDigits` is a nonempty digit run. -/
lemma pmTagDigits_cap {ci : Bool} {op cl s : List Char} {pr : List Char × List Char}
    (h : pmTagDigits ci op cl s = some pr) :
    pr.1 ≠ [] ∧ pr.1.all Char.isDigit = true := by
  unfold pmTagDigits at h
  cases h1 : stripPref ci op s with
  | none => rw [h1] at h; cases h
  | some r1 =>
    rw [h1] at h
    simp only at h
    by_cases hd : (r1.takeWhile Char.isDigit).isEmpty
    · rw [if_pos hd] at h; cases h
    · rw [if_neg hd] at h
      cases h2 : stripPref ci cl (r1.drop (r1.takeWhile Char.isDigit).length) with
      | none => rw [h2] at h; cases h
      | some r2 =>
        rw [h2] at h
        injection h with h
        subst h
        refine ⟨?_, ?_⟩
        · show r1.takeWhile Char.isDigit ≠ []
          intro hnil
          rw [hnil] at hd
          exact hd rfl
        · show (r1.takeWhile Char.isDigit).all Char.isDigit = true
          exact all_takeWhile _ _

/-- The capture of `pmLooseDigits` is a nonempty digit run. -/
lemma pmLooseDigits_cap {lit s : List Char} {pr : List Char × List Char}
    (h : pmLooseDigits lit s = some pr) :
    pr.1 ≠ [] ∧ pr.1.all Char.isDigit = true := by
  unfold pmLooseDigits at h
  cases h1 : stripPref true lit s with
  | none => rw [h1] at h; cases h
  | some r1 =>
    rw [h1] at h
    simp only at h
    cases h2 : r1.dropWhile (fun c => c != '>') with
    | nil => rw [h2] at h; cases h
    | cons c r3 =>
      rw [h2] at h
      simp only at h
      by_cases hc : (c == '>') = true
      · rw [if_pos hc] at h
        by_cases hd : (r3.takeWhile Char.isDigit).isEmpty
        · rw [if_pos hd] at h; cases h
        · rw [if_neg hd] at h
          cases h3 : r3.drop (r3.takeWhile Char.isDigit).length with
          | nil => rw [h3] at h; cases h
          | cons c2 rem =>
            rw [h3] at h
            simp only at h
            by_cases hc2 : (c2 == '<') = true
            · rw [if_pos hc2] at h
              injection h with h
              subst h
              refine ⟨?_, ?_⟩
              · show r3.takeWhile Char.isDigit ≠ []
                intro hnil
                rw [hnil] at hd
                exact hd rfl
              · show (r3.takeWhile Char.isDigit).all Char.isDigit = true
                exact all_takeWhile _ _
            · rw [if_neg hc2] at h; cases h
      · rw [if_neg hc] at h; cases h

/-- A successful `scanFirst` comes from a success of the position
matcher at some suffix. -/
lemma scanFirst_some {α : Type} {f : List Char → Option α} :
    ∀ {l : List Char} {a : α}, scanFirst f l = some a → ∃ t, f t = some a := by
  intro l
  induction l with
  | nil => intro a h; exact ⟨[], h⟩
  | cons c cs ih =>
    intro a h
    rw [scanFirst] at h
    cases hf : f (c :: cs) with
    | some b => rw [hf] at h; injection h with h; subst h; exact ⟨_, hf⟩
    | none => rw [hf] at h; exact ih h

/-- A failing `scanFirst` on a nonempty list fails at the head position
and on the tail. -/
lemma scanFirst_none_cons {α : Type} {f : List Char → Option α} {c : Char} {cs : List Char}
    (h : scanFirst f (c :: cs) = none) : f (c :: cs) = none ∧ scanFirst f cs = none := by
  rw [scanFirst] at h
  cases hf : f (c :: cs) with
  | some b => rw [hf] at h; cases h
  | none => rw [hf] at h; exact ⟨rfl, h⟩

/-- When a position matcher `f` fails everywhere (witnessed by a failing
`scanFirst`), any matcher `g` that fails wherever `f` does produces an
empty `scanAllAux` run. -/
lemma scanAllAux_eq_nil {β γ : Type} {f : List Char → Option β}
    {g : List Char → Option (γ × List Char)}
    (hfg : ∀ t, f t = none → g t = none) :
    ∀ (fuel : Nat) (l : List Char), scanFirst f l = none → scanAllAux g fuel l = [] := by
  intro fuel
  induction fuel with
  | zero => intro l _; rfl
  | succ n ih =>
    intro l h
    cases l with
    | nil =>
      have hf : f [] = none := h
      rw [scanAllAux, hfg _ hf]
    | cons c cs =>
      obtain ⟨h1, h2⟩ := scanFirst_none_cons h
      rw [scanAllAux, hfg _ h1]
      exact ih cs h2

/-- A fired exact tag pattern hands `parseInt` a digit string. -/
lemma mtExact_parseInt {ci : Bool} {op cl l : List Char} {s : String}
    (h : mtExact ci op cl l = some s) : ∃ n, jsParseInt s = some n := by
  unfold mtExact at h
  cases hsc : scanFirst (pmTagDigits ci op cl) l with
  | none => rw [hsc] at h; cases h
  | some pr =>
    rw [hsc] at h
    injection h with h
    subst h
    obtain ⟨t, hft⟩ := scanFirst_some hsc
    obtain ⟨hne, hdig⟩ := pmTagDigits_cap hft
    exact ⟨digitsToNat pr.1, jsParseInt_of_digits hne hdig⟩

/-- A fired loose pattern hands `parseInt` a digit string. -/
lemma mtLoose_parseInt {lit l : List Char} {s : String}
    (h : mtLoose lit l = some s) : ∃ n, jsParseInt s = some n := by
  unfold mtLoose at h
  cases hsc : scanFirst (pmLooseDigits lit) l with
  | none => rw [hsc] at h; cases h
  | some pr =>
    rw [hsc] at h
    injection h with h
    subst h
    obtain ⟨t, hft⟩ := scanFirst_some hsc
    obtain ⟨hne, hdig⟩ := pmLooseDigits_cap hft
    exact ⟨digitsToNat pr.1, jsParseInt_of_digits hne hdig⟩

/-- When the first (non-global) occurrence search for a tag pattern
fails, the `g`-flagged search for the same pattern has no matches, so
its `match[1]` guard fails too: the two `g`-flagged patterns of the
cascade are unreachable. -/
lemma mtGlobalSecond_none {op cl l : List Char}
    (h : mtExact false op cl l = none) : mtGlobalSecond op cl l = none := by
  have hsc : scanFirst (pmTagDigits false op cl) l = none := by
    cases hs : scanFirst (pmTagDigits false op cl) l with
    | none => rfl
    | some pr =>
      unfold mtExact at h
      rw [hs] at h
      cases h
  have hnil : scanAll (pmTagDigitsFull op cl) l = [] := by
    apply scanAllAux_eq_nil (f := pmTagDigits false op cl)
    · intro t ht
      unfold pmTagDigitsFull
      rw [ht]
      rfl
    · exact hsc
  unfold mtGlobalSecond
  rw [hnil]

/-- The cascade never produces `NaN`: every assigned value is the
`parseInt` of a digit capture, because the two `g`-flagged patterns
(whose `[1]` would be a full-match string) can only be reached after the
identical non-global pattern already failed, in which case they have no
match at all. -/
lemma totalResultsCascade_not_nan {l : List Char} {v : Option Nat}
    (h : totalResultsCascade l = some v) : ∃ n, v = some n := by
  unfold totalResultsCascade at h
  cases h1 : mtExact false osTotalOpen osTotalClose l with
  | some s =>
    rw [h1] at h
    obtain ⟨n, hn⟩ := mtExact_parseInt h1
    exact ⟨n, by injection h with h; rw [← h, hn]⟩
  | none =>
  rw [h1] at h
  cases h2 : mtExact false plainTotalOpen plainTotalClose l with
  | some s =>
    rw [h2] at h
    obtain ⟨n, hn⟩ := mtExact_parseInt h2
    exact ⟨n, by injection h with h; rw [← h, hn]⟩
  | none =>
  rw [h2] at h
  cases h3 : mtExact true osTotalOpen osTotalClose l with
  | some s =>
    rw [h3] at h
    obtain ⟨n, hn⟩ := mtExact_parseInt h3
    exact ⟨n, by injection h with h; rw [← h, hn]⟩
  | none =>
  rw [h3] at h
  cases h4 : mtExact true plainTotalOpen plainTotalClose l with
  | some s =>
    rw [h4] at h
    obtain ⟨n, hn⟩ := mtExact_parseInt h4
    exact ⟨n, by injection h with h; rw [← h, hn]⟩
  | none =>
  rw [h4] at h
  rw [mtGlobalSecond_none h1, mtGlobalSecond_none h2] at h
  cases h7 : mtLoose looseTotalLit l with
  | some s =>
    rw [h7] at h
    obtain ⟨n, hn⟩ := mtLoose_parseInt h7
    exact ⟨n, by injection h with h; rw [← h, hn]⟩
  | none =>
  rw [h7] at h
  cases h8 : mtLoose looseOsTotalLit l with
  | some s =>
    rw [h8] at h
    obtain ⟨n, hn⟩ := mtLoose_parseInt h8
    exact ⟨n, by injection h with h; rw [← h, hn]⟩
  | none =>
  rw [h8] at h
  cases h

/-- The cascade-initialised count is never `NaN`. -/
lemma totalResultsInit_isSome (xml : String) : ∃ n, totalResultsInit xml = some n := by
  unfold totalResultsInit
  cases hc : totalResultsCascade xml.data with
  | none => exact ⟨0, rfl⟩
  | some v =>
    obtain ⟨n, hn⟩ := totalResultsCascade_not_nan hc
    exact ⟨n, by rw [hn]⟩

/-- The count after both fallbacks is never `NaN`. -/
lemma totalResultsPost_isSome (xml : String) (start maxResults : Nat) :
    ∃ n, totalResultsPost xml start maxResults = some n := by
  have hpre : ∃ n, totalResultsPre xml start maxResults = some n := by
    unfold totalResultsPre
    by_cases h0 : totalResultsInit xml = some 0
    · exact ⟨_, if_pos h0⟩
    · obtain ⟨n, hn⟩ := totalResultsInit_isSome xml
      exact ⟨n, by rw [if_neg h0]; exact hn⟩
  obtain ⟨n, hn⟩ := hpre
  unfold totalResultsPost
  by_cases hc : totalResultsPre xml start maxResults = some 0 ∧ 0 < (resultsOf xml).length
  · rw [if_pos hc]
    by_cases hlt : (resultsOf xml).length < maxResults
    · exact ⟨_, if_pos hlt⟩
    · exact ⟨_, if_neg hlt⟩
  · rw [if_neg hc]
    exact ⟨n, hn⟩

/-- Pointwise-equal extraction functions give equal `filterMap`s. -/
lemma filterMap_ext_fun {α β : Type} (f g : α → Option β) (h : ∀ a, f a = g a) :
    ∀ l : List α, l.filterMap f = l.filterMap g := by
  intro l
  induction l with
  | nil => rfl
  | cons a as ih => simp [List.filterMap_cons, h a, ih]

/-- The length of a `filterMap` counts the inputs on which the function
succeeds. -/
lemma length_filterMap_countP {α β : Type} (f : α → Option β) :
    ∀ l : List α, (l.filterMap f).length = l.countP (fun a => (f a).isSome) := by
  intro l
  induction l with
  | nil => rfl
  | cons a as ih => cases hf : f a <;> simp [List.filterMap_cons, List.countP_cons, hf, ih]

/-- An empty entry capture parses to nothing. -/
lemma parseArxivEntry_empty : parseArxivEntry "" = none := rfl

/-- `parseArxivEntry` succeeds exactly when the id capture succeeds: the
id is the only mandatory field. -/
lemma parseArxivEntry_isSome_iff (e : String) :
    (parseArxivEntry e).isSome = (extractIdRaw e.data).isSome := by
  unfold parseArxivEntry
  cases hid : extractIdRaw e.data <;> rfl

/-- The result list of the normalizer is the per-entry `filterMap` of
`parseArxivEntry` over the entry captures: the empty-capture `continue`
of the source loop is invisible because empty captures fail the id
extraction anyway. -/
lemma resultsOf_eq_filterMap (xml : String) :
    resultsOf xml = (extractEntries xml).filterMap parseArxivEntry := by
  unfold resultsOf
  apply filterMap_ext_fun
  intro e
  by_cases he : e = ""
  · subst he; rw [if_pos rfl, parseArxivEntry_empty]
  · rw [if_neg he]

/-! ## Concrete inputs used by the witnesses and counterexamples -/

/-- Parameters with a populated `all` override alongside populated
filter fields. -/
def pAllQuantum : ArxivSearchParams :=
  { query := "x", author := "Ann", all := "quantum" }

/-- The concrete query of the spec scenario: author and category only. -/
def pJohnDoe : ArxivSearchParams :=
  { query := "", author := "John Doe", category := "cs.AI" }

/-- Parameters with empty free text and empty override. -/
def pEmptyQuery : ArxivSearchParams := { query := "" }

/-- A feed whose total-results marker reads `0`. -/
def feedMarkerZero : String := "<opensearch:totalResults>0</opensearch:totalResults>"

/-- A feed with a total-results marker of `10` and one entry. -/
def feedMarkerTen : String :=
  "<opensearch:totalResults>10</opensearch:totalResults><entry><id>http://arxiv.org/abs/1706.03762v1</id></entry>"

/-- A feed with one entry and no total-results marker. -/
def feedOneEntry : String := "<entry><id>http://arxiv.org/abs/1706.03762v1</id></entry>"

/-- A feed whose entry ids are a bare version suffix and an id with two
version-like suffixes. -/
def feedOddIds : String :=
  "<entry><id>http://arxiv.org/abs/v7</id></entry><entry><id>http://arxiv.org/abs/1v2v3</id></entry>"

/-- An entry capture with an id and no other field. -/
def entryIdOnly : String := "<id>http://arxiv.org/abs/1706.03762v1</id>"

/-- The record `parseArxivEntry` emits for `entryIdOnly`. -/
def recIdOnly : ArxivSearchResult :=
  { id := "1706.03762"
    title := "Untitled"
    authors := []
    abstract := ""
    published := ""
    updated := ""
    categories := []
    pdfUrl := "https://arxiv.org/pdf/1706.03762"
    abstractUrl := "https://arxiv.org/abs/1706.03762"
    doi := none
    comment := none }

/-- A concrete arXiv abstract URL. -/
def urlAbsExample : String := "https://arxiv.org/abs/1706.03762"

/-! ## Claim C1 -/

/-- C1 (amended): for every `SearchQuery` whose `all` override is a
non-empty string, the query string built by `searchArxiv` equals the
literal `all:` followed by the override — not the override verbatim —
and every other filter field is ignored. -/
theorem buildSearchQuery_all_override :
    ∀ p : ArxivSearchParams, p.all ≠ "" → buildSearchQuery p = "all:" ++ p.all := by
  intro p h
  unfold buildSearchQuery
  rw [if_pos h]

/-- C1 witness: the amended statement at a concrete query with a
populated override and populated filter fields. -/
theorem buildSearchQuery_all_override_witness :
    pAllQuantum.all ≠ "" ∧ buildSearchQuery pAllQuantum = "all:" ++ pAllQuantum.all :=
  ⟨by decide, buildSearchQuery_all_override pAllQuantum (by decide)⟩

/-- C1 counterexample: with override `quantum` the built query string is
`all:quantum`, which is not the override verbatim. -/
theorem buildSearchQuery_override_not_verbatim :
    buildSearchQuery pAllQuantum = "all:quantum" ∧ pAllQuantum.all = "quantum" ∧
      buildSearchQuery pAllQuantum ≠ pAllQuantum.all :=
  ⟨rfl, rfl, by decide⟩

/-! ## Claim C4 -/

/-- C4 (amended): `searchArxiv` performs no input validation.  For every
`SearchQuery` with empty free-text query and empty `all` override it
does not report a failure: it proceeds to the network request, whose
`search_query` parameter is the join of the remaining filter tokens —
the empty string when no filter is populated. -/
theorem searchArxiv_no_validation :
    ∀ p : ArxivSearchParams, p.query = "" → p.all = "" →
      ∃ r, searchArxivPrepare p = Except.ok r ∧
        r.search_query = String.intercalate " AND " (queryParts p) := by
  intro p _ h2
  refine ⟨_, rfl, ?_⟩
  show buildSearchQuery p = _
  unfold buildSearchQuery
  rw [if_neg (not_not_intro h2)]

/-- C4 witness: the amended statement at the all-empty query. -/
theorem searchArxiv_no_validation_witness :
    pEmptyQuery.query = "" ∧ pEmptyQuery.all = "" ∧
      ∃ r, searchArxivPrepare pEmptyQuery = Except.ok r ∧
        r.search_query = String.intercalate " AND " (queryParts pEmptyQuery) :=
  ⟨rfl, rfl, searchArxiv_no_validation pEmptyQuery rfl rfl⟩

/-- C4 counterexample: with both the free-text query and the override
empty, `searchArxiv` reports no validation failure; it reaches the fetch
with `search_query` set to the empty string. -/
theorem searchArxiv_empty_query_sent :
    searchArxivPrepare pEmptyQuery =
      Except.ok { search_query := "", start := "0", max_results := "10",
                  sortBy := "relevance", sortOrder := "descending" } := rfl

/-- One step of the spec-side token list: peeling a prefixed field off
the `filterMap`. -/
lemma specTok_cons (pre v : String) (rest : List (String × String)) :
    List.filterMap (fun pr => if pr.2 = "" then none else some (pr.1 ++ pr.2))
        ((pre, v) :: rest) =
      (if v = "" then [] else [pre ++ v]) ++
        List.filterMap (fun pr => if pr.2 = "" then none else some (pr.1 ++ pr.2)) rest := by
  by_cases h : v = ""
  · simp [List.filterMap_cons, h]
  · simp [List.filterMap_cons, h]

/-! ## Claim C6 -/

/-- C6: for every `SearchQuery` without an `all` override, the built
query string contains exactly one prefixed token per populated field,
joined by the literal `' AND '`, in the declared token order
`all:, au:, ti:, abs:, co:, jr:, rn:, cat:`; in particular the query
with author `John Doe` and category `cs.AI` and empty free text builds
`au:John Doe AND cat:cs.AI`. -/
theorem buildSearchQuery_field_tokens :
    (∀ p : ArxivSearchParams, p.all = "" → buildSearchQuery p = specQueryString p) ∧
      buildSearchQuery pJohnDoe = "au:John Doe AND cat:cs.AI" := by
  constructor
  · intro p h
    unfold buildSearchQuery
    rw [if_neg (not_not_intro h)]
    unfold specQueryString specFieldTokens queryParts
    rw [specTok_cons, specTok_cons, specTok_cons, specTok_cons, specTok_cons,
      specTok_cons, specTok_cons, specTok_cons, List.filterMap_nil]
    simp only [List.append_nil, List.append_assoc]
  · decide

/-- C6 witness: the refinement statement applied at the concrete
author-and-category query. -/
theorem buildSearchQuery_field_tokens_witness :
    pJohnDoe.all = "" ∧ buildSearchQuery pJohnDoe = specQueryString pJohnDoe :=
  ⟨rfl, buildSearchQuery_field_tokens.1 pJohnDoe rfl⟩

/-! ## Claim C2 -/

/-- C2: for every feed text, the records returned by
`parseArxivXmlResponse` are exactly the per-entry parses of the entry
blocks in their original relative order (`filterMap` keeps order and
drops exactly the failures), the number of records equals the number of
entry blocks whose parse succeeds, and an entry parse succeeds exactly
when its id extraction succeeds — so a malformed entry is skipped in
isolation and the (total) parse never throws. -/
theorem parseArxivXmlResponse_results_order :
    ∀ (xml q : String) (start maxResults : Nat),
      (parseArxivXmlResponse xml q start maxResults).results =
          (extractEntries xml).filterMap parseArxivEntry ∧
        (parseArxivXmlResponse xml q start maxResults).results.length =
          (extractEntries xml).countP (fun e => (parseArxivEntry e).isSome) ∧
        ∀ e, (parseArxivEntry e).isSome = (extractIdRaw e.data).isSome := by
  intro xml q start maxResults
  refine ⟨resultsOf_eq_filterMap xml, ?_, parseArxivEntry_isSome_iff⟩
  show (resultsOf xml).length = _
  rw [resultsOf_eq_filterMap xml]
  exact length_filterMap_countP parseArxivEntry (extractEntries xml)

/-! ## Claim C3 -/

/-- C3: for every feed text, start offset and page size, the
`totalResults` field of the returned page is a genuine number (never
`NaN`) at least the start offset plus the number of records returned. -/
theorem parseArxivXmlResponse_total_lower_bound :
    ∀ (xml q : String) (start maxResults : Nat),
      ∃ t, (parseArxivXmlResponse xml q start maxResults).totalResults = some t ∧
        start + (parseArxivXmlResponse xml q start maxResults).results.length ≤ t := by
  intro xml q start maxResults
  obtain ⟨n, hn⟩ := totalResultsPost_isSome xml start maxResults
  refine ⟨Nat.max n (start + (resultsOf xml).length), ?_, ?_⟩
  · show totalResultsFinal xml start maxResults = _
    unfold totalResultsFinal
    rw [hn]
    rfl
  · exact Nat.le_max_right _ _

/-! ## Claim C5 -/

/-- C5 (amended): for every feed with a recognizable total-results
marker of value `V ≥ 1`, every start offset and page size, and `V` at
least the start offset plus the extracted record count, the returned
`totalResults` equals `V`.  (`V = 0` is excluded: the code treats a
marker reading `0` as an absent count and replaces it with the fallback
estimate.) -/
theorem parseArxivXmlResponse_marker_roundtrip :
    ∀ (xml q : String) (start maxResults V : Nat),
      totalResultsCascade xml.data = some (some V) → 1 ≤ V →
      start + (parseArxivXmlResponse xml q start maxResults).results.length ≤ V →
      (parseArxivXmlResponse xml q start maxResults).totalResults = some V := by
  intro xml q start maxResults V h1 h2 h3
  have h3' : start + (resultsOf xml).length ≤ V := h3
  have hinit : totalResultsInit xml = some V := by
    unfold totalResultsInit
    rw [h1]
  have hne : totalResultsInit xml ≠ some 0 := by
    rw [hinit]
    intro hcon
    injection hcon with hcon
    omega
  have hpre : totalResultsPre xml start maxResults = some V := by
    unfold totalResultsPre
    rw [if_neg hne]
    exact hinit
  have hcond : ¬(totalResultsPre xml start maxResults = some 0 ∧
      0 < (resultsOf xml).length) := by
    intro hcon
    obtain ⟨ha, _⟩ := hcon
    rw [hpre] at ha
    injection ha with ha
    omega
  have hpost : totalResultsPost xml start maxResults = some V := by
    unfold totalResultsPost
    rw [if_neg hcond]
    exact hpre
  show totalResultsFinal xml start maxResults = some V
  unfold totalResultsFinal
  rw [hpost]
  show some (Nat.max V (start + (resultsOf xml).length)) = some V
  exact congrArg some (Nat.max_eq_left h3')

/-- C5 witness: a feed with marker `10` and one entry returns
`totalResults = 10`. -/
theorem parseArxivXmlResponse_marker_roundtrip_witness :
    totalResultsCascade feedMarkerTen.data = some (some 10) ∧
      (parseArxivXmlResponse feedMarkerTen "q" 0 10).totalResults = some 10 :=
  ⟨by decide,
   parseArxivXmlResponse_marker_roundtrip feedMarkerTen "q" 0 10 10
     (by decide) (by decide) (by decide)⟩

/-- C5 counterexample: a feed whose recognizable marker reads `V = 0`
(with start offset `0` and no records, so `V ≥ start + N` holds) does
not get `totalResults = 0`: the code replaces the zero count with the
fallback estimate `100`. -/
theorem parseArxivXmlResponse_marker_zero_not_returned :
    totalResultsCascade feedMarkerZero.data = some (some 0) ∧
      0 + (parseArxivXmlResponse feedMarkerZero "q" 0 10).results.length ≤ 0 ∧
      (parseArxivXmlResponse feedMarkerZero "q" 0 10).totalResults = some 100 ∧
      (100 : Nat) ≠ 0 :=
  ⟨by decide, by decide, by decide, by decide⟩

/-! ## Claim C7 -/

/-- C7 (amended): for every feed with no recognizable total-results
marker that yields `N` records with `0 < N < maxResults`, the returned
`totalResults` is `max 100 (start + maxResults + 50)` — the
pre-extraction fallback.  The post-extraction `start + N` estimate the
claim describes is dead code: it only runs when the count is still `0`,
which the pre-extraction fallback has already made impossible. -/
theorem parseArxivXmlResponse_no_marker_fallback :
    ∀ (xml q : String) (start maxResults : Nat),
      totalResultsCascade xml.data = none →
      0 < (parseArxivXmlResponse xml q start maxResults).results.length →
      (parseArxivXmlResponse xml q start maxResults).results.length < maxResults →
      (parseArxivXmlResponse xml q start maxResults).totalResults =
        some (Nat.max 100 (start + maxResults + 50)) := by
  intro xml q start maxResults h1 h2 h3
  have hlen3 : (resultsOf xml).length < maxResults := h3
  have hinit : totalResultsInit xml = some 0 := by
    unfold totalResultsInit
    rw [h1]
  have hpre : totalResultsPre xml start maxResults =
      some (Nat.max 100 (start + maxResults + 50)) := by
    unfold totalResultsPre
    rw [if_pos hinit]
  have hM : (100 : Nat) ≤ Nat.max 100 (start + maxResults + 50) := Nat.le_max_left _ _
  have hcond : ¬(totalResultsPre xml start maxResults = some 0 ∧
      0 < (resultsOf xml).length) := by
    intro hcon
    obtain ⟨ha, _⟩ := hcon
    rw [hpre] at ha
    injection ha with ha
    omega
  have hpost : totalResultsPost xml start maxResults =
      some (Nat.max 100 (start + maxResults + 50)) := by
    unfold totalResultsPost
    rw [if_neg hcond]
    exact hpre
  show totalResultsFinal xml start maxResults = _
  unfold totalResultsFinal
  rw [hpost]
  show some (Nat.max (Nat.max 100 (start + maxResults + 50))
    (start + (resultsOf xml).length)) = _
  have hle : start + (resultsOf xml).length ≤ Nat.max 100 (start + maxResults + 50) := by
    have h' : start + (resultsOf xml).length ≤ start + maxResults + 50 := by omega
    exact le_trans h' (Nat.le_max_right _ _)
  exact congrArg some (Nat.max_eq_left hle)

/-- C7 witness: the amended statement at a one-entry markerless feed
with start `0` and page size `10`: the returned count is `100`. -/
theorem parseArxivXmlResponse_no_marker_fallback_witness :
    totalResultsCascade feedOneEntry.data = none ∧
      0 < (parseArxivXmlResponse feedOneEntry "q" 0 10).results.length ∧
      (parseArxivXmlResponse feedOneEntry "q" 0 10).results.length < 10 ∧
      (parseArxivXmlResponse feedOneEntry "q" 0 10).totalResults =
        some (Nat.max 100 (0 + 10 + 50)) :=
  ⟨by decide, by decide, by decide,
   parseArxivXmlResponse_no_marker_fallback feedOneEntry "q" 0 10
     (by decide) (by decide) (by decide)⟩

/-- C7 counterexample: a markerless feed with one entry (an incomplete
page for page size `10`, start `0`) returns `totalResults = 100`, not
the conservative `start + N = 1` the claim states. -/
theorem parseArxivXmlResponse_short_page_estimate_dead :
    totalResultsCascade feedOneEntry.data = none ∧
      (parseArxivXmlResponse feedOneEntry "q" 0 10).results.length = 1 ∧
      (parseArxivXmlResponse feedOneEntry "q" 0 10).totalResults = some 100 ∧
      (some 100 : Option Nat) ≠ some (0 + 1) :=
  ⟨by decide, by decide, by decide, by decide⟩

/-! ## Claim C8 -/

/-- C8 (amended): for every entry whose id extraction succeeds, each
non-mandatory field whose extraction fails defaults in the emitted
record — authors and categories to the empty list, abstract, published
and updated to the empty string, doi and comment to absent — except the
title, which defaults to the placeholder string `Untitled`. -/
theorem parseArxivEntry_field_defaults :
    ∀ (e : String) (r : ArxivSearchResult), parseArxivEntry e = some r →
      (extractTitle e.data = none → r.title = "Untitled") ∧
      (extractAuthorCaps e.data = [] → r.authors = []) ∧
      (extractSummary e.data = none → r.abstract = "") ∧
      (extractPublished e.data = none → r.published = "") ∧
      (extractUpdated e.data = none → r.updated = "") ∧
      (extractCategoryCaps e.data = [] → r.categories = []) ∧
      (extractDoi e.data = none → r.doi = none) ∧
      (extractComment e.data = none → r.comment = none) := by
  intro e r h
  unfold parseArxivEntry at h
  cases hid : extractIdRaw e.data with
  | none => rw [hid] at h; cases h
  | some raw =>
    rw [hid] at h
    injection h with h
    subst h
    refine ⟨?_, ?_, ?_, ?_, ?_, ?_, ?_, ?_⟩ <;> intro hx <;> simp [hx]

/-- C8 witness: the id-only entry has every optional extraction fail,
and the emitted record carries the defaults. -/
theorem parseArxivEntry_field_defaults_witness :
    parseArxivEntry entryIdOnly = some recIdOnly ∧
      extractTitle entryIdOnly.data = none ∧ recIdOnly.title = "Untitled" ∧
      recIdOnly.doi = none := by
  have h := parseArxivEntry_field_defaults entryIdOnly recIdOnly (by decide)
  exact ⟨by decide, by decide, h.1 (by decide), h.2.2.2.2.2.2.1 (by decide)⟩

/-- C8 counterexample: when title extraction fails the emitted title is
the placeholder `Untitled`, not empty or absent. -/
theorem parseArxivEntry_title_placeholder :
    extractTitle entryIdOnly.data = none ∧
      (parseArxivEntry entryIdOnly).map (fun r => r.title) = some ("Untitled") ∧
      ("Untitled" : String) ≠ "" :=
  ⟨by decide, by decide, by decide⟩

/-! ## Claim C9 -/

/-- C9 (amended): every record the feed normalizer emits has
`pdfUrl = "https://arxiv.org/pdf/" ++ id` and
`abstractUrl = "https://arxiv.org/abs/" ++ id`, where the id is the raw
id capture with a single trailing version suffix removed.  The id can be
empty (when the raw capture is exactly a version suffix) and can still
end in `v<digits>` (when the raw capture carries two version-like
suffixes), so the non-emptiness and no-version clauses of the claim do
not hold. -/
theorem parseArxivEntry_derived_urls :
    ∀ (e : String) (r : ArxivSearchResult), parseArxivEntry e = some r →
      ∃ raw, extractIdRaw e.data = some raw ∧ r.id = stripVersionSuffix raw ∧
        r.pdfUrl = "https://arxiv.org/pdf/" ++ r.id ∧
        r.abstractUrl = "https://arxiv.org/abs/" ++ r.id := by
  intro e r h
  unfold parseArxivEntry at h
  cases hid : extractIdRaw e.data with
  | none => rw [hid] at h; cases h
  | some raw =>
    rw [hid] at h
    injection h with h
    subst h
    exact ⟨raw, rfl, rfl, rfl, rfl⟩

/-- C9 witness: the amended statement at the id-only entry. -/
theorem parseArxivEntry_derived_urls_witness :
    parseArxivEntry entryIdOnly = some recIdOnly ∧
      ∃ raw, extractIdRaw entryIdOnly.data = some raw ∧
        recIdOnly.id = stripVersionSuffix raw ∧
        recIdOnly.pdfUrl = "https://arxiv.org/pdf/" ++ recIdOnly.id ∧
        recIdOnly.abstractUrl = "https://arxiv.org/abs/" ++ recIdOnly.id :=
  ⟨by decide, parseArxivEntry_derived_urls entryIdOnly recIdOnly (by decide)⟩

/-- C9 counterexample: the normalizer emits a record with an empty id
(raw id `v7`) and a record whose id `1v2` (raw id `1v2v3`) still
matches `/v\d+$/`. -/
theorem parseArxivXmlResponse_id_invariant_fails :
    (parseArxivXmlResponse feedOddIds "q" 0 10).results.map (fun r => r.id) =
        ["", "1v2"] ∧
      matchesVersionSuffix ("1v2") = true :=
  ⟨by decide, by decide⟩

/-! ## Claim C10 -/

/-- A pattern iteration of `extractArxivIdFromUrl` only returns
validated ids. -/
lemma tryUrlPattern_valid {lit : List Char} {b : Bool} {url s : String}
    (h : tryUrlPattern lit b url = some s) : isValidArxivId s = true := by
  unfold tryUrlPattern at h
  cases hsc : scanFirst (pmUrlCapture lit b) url.data with
  | none => rw [hsc] at h; cases h
  | some cand =>
    rw [hsc] at h
    simp only at h
    by_cases hv : isValidArxivId (stripPdfExt (String.mk cand)) = true
    · rw [if_pos hv] at h
      injection h with h
      subst h
      exact hv
    · rw [if_neg hv] at h
      cases h

/-- C10: for every input string, `extractArxivIdFromUrl` returns either
`none` or an id accepted by `isValidArxivId`: the function validates
every candidate before returning it. -/
theorem extractArxivIdFromUrl_validated :
    ∀ (url s : String), extractArxivIdFromUrl url = some s →
      isValidArxivId s = true := by
  intro url s h
  unfold extractArxivIdFromUrl at h
  cases h1 : tryUrlPattern absUrlLit false url with
  | some t =>
    rw [h1] at h
    injection h with h
    subst h
    exact tryUrlPattern_valid h1
  | none =>
    rw [h1] at h
    cases h2 : tryUrlPattern pdfUrlLit true url with
    | some t =>
      rw [h2] at h
      injection h with h
      subst h
      exact tryUrlPattern_valid h2
    | none =>
      rw [h2] at h
      exact tryUrlPattern_valid h

/-- C10 witness: a concrete abstract URL extracts a validated id. -/
theorem extractArxivIdFromUrl_validated_witness :
    extractArxivIdFromUrl urlAbsExample = some ("1706.03762") ∧
      isValidArxivId ("1706.03762") = true :=
  ⟨by decide, extractArxivIdFromUrl_validated urlAbsExample ("1706.03762") (by decide)⟩
